import Mathlib

/-!
Shallow embedding of the `Hibernot` inactivity-tracking keep-alive scheduler
(`src/index.ts`, the exported class `Hibernot` together with `HibernotError`).

The class is single-threaded JavaScript: all state mutation happens on the
event loop, timers are registered with `setTimeout` and removed with
`clearTimeout`.  We model the instance fields (`activityCount`,
`lastActivityTimestamp`, `inactivityTimeout`) directly, and the runtime's
timer queue explicitly as a list of pending timer entries owned by the
instance, so that statements about "pending timers" are about the queue the
runtime actually holds.  Machine time is an `Int` (milliseconds); JavaScript
numbers are modelled as integers (`NaN` and fractional values are outside the
model).
-/

namespace Hibernot

/-- Errors that can be thrown inside the library:
`hibernot msg` models `new HibernotError(msg)`; `actionError a` models the
(opaque) rejection value produced by the user's `keepAliveFn` on attempt
number `a`. -/
inductive JsError where
  | hibernot (msg : String)
  | actionError (attempt : Nat)
deriving DecidableEq, Repr

/-- A JavaScript value sitting in a numeric configuration slot:
either a number (modelled as an integer), a defined value whose `typeof` is
not `'number'`, or `undefined` (absent). -/
inductive JSNumVal where
  | num (x : Int)
  | nonNumber
  | undef
deriving DecidableEq, Repr

/-- A JavaScript value sitting in the `keepAliveFn` slot: a callable
function, a truthy non-callable value, or an absent/falsy value
(`undefined`, `null`, ...). -/
inductive JSFnVal where
  | func
  | nonFunc
  | absent
deriving DecidableEq, Repr

/-- The raw `HibernotConfig` record handed to the constructor, before
validation. -/
structure RawConfig where
  inactivityLimit : JSNumVal
  keepAliveFn : JSFnVal
  maxRetryAttempts : JSNumVal
  instanceName : Option String
deriving DecidableEq, Repr

/-- The validated configuration stored in `this.config`.  Validation
guarantees `inactivityLimit > 0` and `maxRetryAttempts ≥ 0` (default 3), so
the retry bound is carried as a `Nat`. -/
structure Config where
  inactivityLimit : Int
  maxRetryAttempts : Nat
  instanceName : Option String
deriving DecidableEq, Repr

/-- The constructor's validation sequence, in source order:

* `typeof config.inactivityLimit !== 'number' || config.inactivityLimit <= 0`
  throws `HibernotError('inactivityLimit must be a positive number')`;
* `!config.keepAliveFn || typeof config.keepAliveFn !== 'function'`
  throws `HibernotError('keepAliveFn must be a valid async function')`;
* `config.maxRetryAttempts !== undefined && (typeof config.maxRetryAttempts
  !== 'number' || config.maxRetryAttempts < 0)`
  throws `HibernotError('maxRetryAttempts must be a non-negative number')`;
* otherwise `this.config = { ...config, maxRetryAttempts:
  config.maxRetryAttempts !== undefined ? config.maxRetryAttempts : 3 }`. -/
def validate (raw : RawConfig) : Except JsError Config :=
  match raw.inactivityLimit with
  | .nonNumber => .error (.hibernot "inactivityLimit must be a positive number")
  | .undef => .error (.hibernot "inactivityLimit must be a positive number")
  | .num limit =>
    if limit ≤ 0 then
      .error (.hibernot "inactivityLimit must be a positive number")
    else
      match raw.keepAliveFn with
      | .nonFunc => .error (.hibernot "keepAliveFn must be a valid async function")
      | .absent => .error (.hibernot "keepAliveFn must be a valid async function")
      | .func =>
        match raw.maxRetryAttempts with
        | .undef => .ok ⟨limit, 3, raw.instanceName⟩
        | .nonNumber => .error (.hibernot "maxRetryAttempts must be a non-negative number")
        | .num m =>
          if m < 0 then
            .error (.hibernot "maxRetryAttempts must be a non-negative number")
          else
            .ok ⟨limit, m.toNat, raw.instanceName⟩

/-- The hard-coded delay between retry attempts:
`await new Promise(resolve => setTimeout(resolve, 1000))`. -/
def retryDelay : Int := 1000

instance {ε α : Type} [DecidableEq ε] [DecidableEq α] : DecidableEq (Except ε α) := fun x y =>
  match x, y with
  | .ok a, .ok b => if h : a = b then isTrue (by rw [h]) else isFalse (by simp [h])
  | .error a, .error b => if h : a = b then isTrue (by rw [h]) else isFalse (by simp [h])
  | .ok _, .error _ => isFalse (by simp)
  | .error _, .ok _ => isFalse (by simp)

/-- Observable behaviour of one call to `executeKeepAliveWithRetries`:
how many times `keepAliveFn` was invoked, how many `retryDelay` suspensions
happened, and whether the call returned normally or threw. -/
structure RetryTrace where
  invocations : Nat
  delays : Nat
  result : Except JsError Unit
deriving DecidableEq, Repr

/-- The body of the `for (let attempt = 1; attempt <= maxAttempts; attempt++)`
loop of `executeKeepAliveWithRetries`.  `ok a` tells whether the user's
`keepAliveFn` resolves (`true`) or rejects (`false`) on attempt number `a`;
`remaining` counts the loop iterations still allowed
(`maxAttempts - attempt + 1`); `lastError` is the `lastError` variable.
When the loop ends without returning, the source throws
`lastError || new HibernotError('keepAliveFn failed after all retries')`.
A failed attempt suspends for `retryDelay` only when `attempt < maxAttempts`,
i.e. when more than one iteration remains. -/
def retryLoop (ok : Nat → Bool) : Nat → Nat → Option JsError → RetryTrace
  | _, 0, lastError =>
    ⟨0, 0, .error (lastError.getD (.hibernot "keepAliveFn failed after all retries"))⟩
  | attempt, remaining + 1, _ =>
    if ok attempt then
      ⟨1, 0, .ok ()⟩
    else
      let rest := retryLoop ok (attempt + 1) remaining (some (.actionError attempt))
      ⟨rest.invocations + 1, rest.delays + (if 0 < remaining then 1 else 0), rest.result⟩

/-- `executeKeepAliveWithRetries`: runs the retry loop starting at attempt 1
with `maxAttempts = this.config.maxRetryAttempts ?? 3` iterations allowed and
`lastError = null`. -/
def executeKeepAliveWithRetries (maxAttempts : Nat) (ok : Nat → Bool) : RetryTrace :=
  retryLoop ok 1 maxAttempts none

/-- One entry of the runtime's timer queue: the handle returned by
`setTimeout` and the absolute time at which the callback becomes due. -/
structure TimerEntry where
  id : Nat
  fireAt : Int
deriving DecidableEq, Repr

/-- The mutable instance state of a `Hibernot` object, plus the runtime's
timer queue restricted to timers created by this instance (`pending`) and a
fresh-handle counter (`nextId`). -/
structure HState where
  activityCount : Int
  lastActivityTimestamp : Int
  inactivityTimeout : Option Nat
  pending : List TimerEntry
  nextId : Nat
deriving DecidableEq, Repr

/-- `clearTimeout(handle)`: removes the timer with that handle from the
runtime queue; a no-op when the timer already fired or never existed. -/
def clearTimeout (s : HState) (i : Nat) : HState :=
  { s with pending := s.pending.filter (fun e => e.id ≠ i) }

/-- `resetInactivityTimeout()` (the synchronous part of the method body):
if `this.inactivityTimeout` is non-null, `clearTimeout` it; then
`this.inactivityTimeout = setTimeout(handler, this.config.inactivityLimit)`,
which enqueues a fresh timer due `inactivityLimit` from now. -/
def resetInactivityTimeout (cfg : Config) (now : Int) (s : HState) : HState :=
  let s1 := match s.inactivityTimeout with
    | some i => clearTimeout s i
    | none => s
  { s1 with
    pending := s1.pending ++ [⟨s1.nextId, now + cfg.inactivityLimit⟩],
    inactivityTimeout := some s1.nextId,
    nextId := s1.nextId + 1 }

/-- `registerActivity()`: `this.activityCount++`,
`this.lastActivityTimestamp = Date.now()`, then `resetInactivityTimeout()`. -/
def registerActivity (cfg : Config) (now : Int) (s : HState) : HState :=
  resetInactivityTimeout cfg now
    { s with activityCount := s.activityCount + 1, lastActivityTimestamp := now }

/-- `start()`: just `this.resetInactivityTimeout()`. -/
def start (cfg : Config) (now : Int) (s : HState) : HState :=
  resetInactivityTimeout cfg now s

/-- `resetActivityCount()`: `this.activityCount = 0`. -/
def resetActivityCount (s : HState) : HState :=
  { s with activityCount := 0 }

/-- `stop()`: if `this.inactivityTimeout` is non-null, `clearTimeout` it and
set the field to null.  There is no stopped flag in the class. -/
def stop (s : HState) : HState :=
  match s.inactivityTimeout with
  | some i => { clearTimeout s i with inactivityTimeout := none }
  | none => s

/-- The constructor: run the field initialisers
(`activityCount = 1`, `lastActivityTimestamp = Date.now()`,
`inactivityTimeout = null`), validate the raw configuration (throwing a
`HibernotError` synchronously on bad input, in which case no timer is ever
created), store the validated config, and call `this.start()`. -/
def construct (raw : RawConfig) (now : Int) : Except JsError (Config × HState) :=
  match validate raw with
  | .error e => .error e
  | .ok cfg =>
    let s0 : HState :=
      { activityCount := 1, lastActivityTimestamp := now,
        inactivityTimeout := none, pending := [], nextId := 0 }
    .ok (cfg, start cfg now s0)

/-- The outcome of running the timer callback installed by
`resetInactivityTimeout`: the state after the handler's `finally` step, the
time at which the handler finished (the retry loop's `retryDelay`
suspensions let real time pass), the number of `keepAliveFn` invocations,
and the error recorded by the handler's `catch` block
(`console.error('Keep-alive function failed after retries', err)`), if any.
The handler itself never throws: the whole body is wrapped in
`try/catch/finally`. -/
structure FireOutcome where
  state : HState
  endTime : Int
  invocations : Nat
  loggedError : Option JsError
deriving DecidableEq, Repr

/-- The timer callback of `resetInactivityTimeout`, run when the timer
fires at `fireTime` (the runtime has already dequeued the fired entry):
compute `msSinceLastActivity = Date.now() - this.lastActivityTimestamp`;
if it reaches `inactivityLimit`, `await this.executeKeepAliveWithRetries()`
and on success `this.registerActivity()`; a rejection is caught and logged;
the `finally` block always runs `this.resetInactivityTimeout()`. -/
def runHandler (cfg : Config) (ok : Nat → Bool) (fireTime : Int) (s : HState) : FireOutcome :=
  if cfg.inactivityLimit ≤ fireTime - s.lastActivityTimestamp then
    let tr := executeKeepAliveWithRetries cfg.maxRetryAttempts ok
    let endTime := fireTime + retryDelay * tr.delays
    match tr.result with
    | .ok _ =>
      ⟨resetInactivityTimeout cfg endTime (registerActivity cfg endTime s),
        endTime, tr.invocations, none⟩
    | .error e =>
      ⟨resetInactivityTimeout cfg endTime s, endTime, tr.invocations, some e⟩
  else
    ⟨resetInactivityTimeout cfg fireTime s, fireTime, 0, none⟩

/-- The same timer callback, but with `stop()` invoked by external code
while the handler is suspended at `await this.executeKeepAliveWithRetries()`
(every `await` is a suspension point of the single-threaded event loop).
Only defined when the elapsed-time guard holds, since otherwise the handler
body has no suspension point before its `finally`. -/
def runHandlerStopDuring (cfg : Config) (ok : Nat → Bool) (fireTime : Int) (s : HState) :
    Option FireOutcome :=
  if cfg.inactivityLimit ≤ fireTime - s.lastActivityTimestamp then
    let tr := executeKeepAliveWithRetries cfg.maxRetryAttempts ok
    let endTime := fireTime + retryDelay * tr.delays
    let s1 := stop s
    match tr.result with
    | .ok _ =>
      some ⟨resetInactivityTimeout cfg endTime (registerActivity cfg endTime s1),
        endTime, tr.invocations, none⟩
    | .error e =>
      some ⟨resetInactivityTimeout cfg endTime s1, endTime, tr.invocations, some e⟩
  else
    none

/-- A system configuration: instance state plus the current clock. -/
structure Sys where
  st : HState
  now : Int
deriving DecidableEq, Repr

/-- Events that can happen to a live instance: the public operations being
called by external code, the clock advancing, a due timer firing (with the
user action resolving according to `ok`), or a due timer firing with a
`stop()` call interleaved at the handler's `await` suspension point. -/
inductive Act where
  | advance (d : Nat)
  | registerActivity
  | start
  | stop
  | resetActivityCount
  | fire (ok : Nat → Bool)
  | fireStopped (ok : Nat → Bool)

/-- The first timer of the queue that is due at the current clock:
`setTimeout` callbacks run once their delay has elapsed. -/
def dueTimer (σ : Sys) : Option TimerEntry :=
  σ.st.pending.find? (fun e => decide (e.fireAt ≤ σ.now))

/-- One step of the event-loop semantics.  `none` means the event is not
enabled (there is no due timer to fire).  A firing first dequeues the fired
entry, then runs the handler; the clock after a firing is the time at which
the handler finished. -/
def stepF (cfg : Config) (σ : Sys) : Act → Option Sys
  | .advance d => some ⟨σ.st, σ.now + d⟩
  | .registerActivity => some ⟨registerActivity cfg σ.now σ.st, σ.now⟩
  | .start => some ⟨start cfg σ.now σ.st, σ.now⟩
  | .stop => some ⟨stop σ.st, σ.now⟩
  | .resetActivityCount => some ⟨resetActivityCount σ.st, σ.now⟩
  | .fire ok =>
    match dueTimer σ with
    | some e =>
      let out := runHandler cfg ok σ.now (clearTimeout σ.st e.id)
      some ⟨out.state, out.endTime⟩
    | none => none
  | .fireStopped ok =>
    match dueTimer σ with
    | some e =>
      match runHandlerStopDuring cfg ok σ.now (clearTimeout σ.st e.id) with
      | some out => some ⟨out.state, out.endTime⟩
      | none => none
    | none => none

/-- The states a `Hibernot` instance can actually be in: freshly constructed
(at any construction time, from any raw configuration validating to `cfg`),
or the result of any enabled event from a reachable state. -/
inductive Reachable (cfg : Config) : Sys → Prop where
  | init (raw : RawConfig) (t0 : Int) (s : HState) :
      construct raw t0 = .ok (cfg, s) → Reachable cfg ⟨s, t0⟩
  | step (σ σ' : Sys) (a : Act) :
      Reachable cfg σ → stepF cfg σ a = some σ' → Reachable cfg σ'

/-- Ownership invariant: every pending timer of the instance is the one the
`inactivityTimeout` field currently refers to. -/
def OwnsPending (s : HState) : Prop :=
  ∀ e ∈ s.pending, s.inactivityTimeout = some e.id

/-- The single-pending-timer invariant: the field owns every queue entry,
and at most one entry is in the queue. -/
def TimerInv (s : HState) : Prop :=
  OwnsPending s ∧ s.pending.length ≤ 1

/-- The rejection condition actually implemented by the constructor,
written as a boolean over the raw configuration: `inactivityLimit` is not a
(positive) number, or `keepAliveFn` is not a callable function, or
`maxRetryAttempts` is provided and is negative or not a number. -/
def configRejectedB (raw : RawConfig) : Bool :=
  (match raw.inactivityLimit with
    | .num x => x ≤ 0
    | _ => true) ||
  (match raw.keepAliveFn with
    | .func => false
    | _ => true) ||
  (match raw.maxRetryAttempts with
    | .num m => m < 0
    | .nonNumber => true
    | .undef => false)

/-- The rejection condition as the claim words it: `inactivityLimit` zero,
negative or not a number, or `keepAliveFn` absent or not callable, or
`maxRetryAttempts` provided and negative.  (Differs from `configRejectedB`
only in the `maxRetryAttempts` clause: a provided non-number value is not
covered here.) -/
def claimedRejectedB (raw : RawConfig) : Bool :=
  (match raw.inactivityLimit with
    | .num x => x ≤ 0
    | _ => true) ||
  (match raw.keepAliveFn with
    | .func => false
    | _ => true) ||
  (match raw.maxRetryAttempts with
    | .num m => m < 0
    | _ => false)

/-- The claim that `stop()` makes the instance terminal: from any reachable
state, after a `stop()` call — including a `stop()` call interleaved into an
in-progress firing at its suspension point — no further firing is ever
enabled, however far the clock advances. -/
def StopIsTerminal (cfg : Config) : Prop :=
  ∀ σ, Reachable cfg σ →
    (∀ σ', stepF cfg σ Act.stop = some σ' →
      ∀ (d : Nat) (ok : Nat → Bool),
        stepF cfg ⟨σ'.st, σ'.now + (d : Int)⟩ (Act.fire ok) = none) ∧
    (∀ (ok : Nat → Bool) σ', stepF cfg σ (Act.fireStopped ok) = some σ' →
      ∀ (d : Nat) (ok2 : Nat → Bool),
        stepF cfg ⟨σ'.st, σ'.now + (d : Int)⟩ (Act.fire ok2) = none)

/-- A concrete well-formed raw configuration: `inactivityLimit = 100`,
a callable `keepAliveFn`, `maxRetryAttempts` left to default. -/
def sampleRaw : RawConfig := ⟨.num 100, .func, .undef, none⟩

/-- The validated configuration obtained from `sampleRaw`. -/
def sampleCfg : Config := ⟨100, 3, none⟩

/-- The instance state right after `new Hibernot(sampleRaw)` at time 0:
one activity recorded, one timer pending, due at 100. -/
def sampleInit : HState := ⟨1, 0, some 0, [⟨0, 100⟩], 1⟩

lemma ownsPending_nil {s : HState} (h : OwnsPending s)
    (hf : s.inactivityTimeout = none) : s.pending = [] := by
  cases hp : s.pending with
  | nil => rfl
  | cons a l =>
    have := h a (by rw [hp]; exact List.mem_cons_self a l)
    rw [hf] at this
    exact absurd this (by simp)

lemma clearTimeout_owns {s : HState} (i : Nat) (h : OwnsPending s) :
    OwnsPending (clearTimeout s i) := by
  intro e he
  have he' : e ∈ s.pending := List.mem_of_mem_filter he
  exact h e he'

/-- Under the ownership invariant, `resetInactivityTimeout` leaves the queue
holding exactly the freshly armed timer, due `inactivityLimit` from now. -/
lemma resetInactivityTimeout_spec (cfg : Config) (now : Int) (s : HState)
    (h : OwnsPending s) :
    resetInactivityTimeout cfg now s =
      ⟨s.activityCount, s.lastActivityTimestamp, some s.nextId,
        [⟨s.nextId, now + cfg.inactivityLimit⟩], s.nextId + 1⟩ := by
  obtain ⟨ac, ts, it, pd, ni⟩ := s
  cases it with
  | none =>
    have hp : pd = [] := ownsPending_nil h rfl
    simp [resetInactivityTimeout, hp]
  | some i =>
    simp [resetInactivityTimeout, clearTimeout]
    intro a ha
    have := h a ha
    simp only [Option.some.injEq] at this
    exact this.symm

/-- Under the ownership invariant, `stop` empties the queue and clears the
handle field, touching nothing else. -/
lemma stop_spec (s : HState) (h : OwnsPending s) :
    stop s = ⟨s.activityCount, s.lastActivityTimestamp, none, [], s.nextId⟩ := by
  obtain ⟨ac, ts, it, pd, ni⟩ := s
  cases it with
  | none =>
    have hp : pd = [] := ownsPending_nil h rfl
    simp [stop, hp]
  | some i =>
    simp [stop, clearTimeout]
    intro a ha
    have := h a ha
    simp only [Option.some.injEq] at this
    exact this.symm

/-- Under the ownership invariant, `registerActivity` bumps the counter,
stamps the clock, and leaves exactly one fresh timer pending. -/
lemma registerActivity_spec (cfg : Config) (now : Int) (s : HState)
    (h : OwnsPending s) :
    registerActivity cfg now s =
      ⟨s.activityCount + 1, now, some s.nextId,
        [⟨s.nextId, now + cfg.inactivityLimit⟩], s.nextId + 1⟩ := by
  have h' : OwnsPending
      { s with activityCount := s.activityCount + 1, lastActivityTimestamp := now } := h
  rw [registerActivity, resetInactivityTimeout_spec cfg now _ h']

lemma ownsPending_of_singleton {s : HState} {i : Nat} {t : Int}
    (hp : s.pending = [⟨i, t⟩]) (hf : s.inactivityTimeout = some i) :
    OwnsPending s := by
  intro e he
  rw [hp] at he
  simp at he
  rw [hf, he]

/-- Whatever the retry loop does, the handler's `finally` step leaves
exactly one pending timer, due `inactivityLimit` after the time at which the
handler finished, owned by the handle field. -/
lemma runHandler_state (cfg : Config) (ok : Nat → Bool) (t : Int) (s : HState)
    (h : OwnsPending s) :
    (runHandler cfg ok t s).state.pending =
      [⟨(runHandler cfg ok t s).state.nextId - 1,
        (runHandler cfg ok t s).endTime + cfg.inactivityLimit⟩] ∧
    (runHandler cfg ok t s).state.inactivityTimeout =
      some ((runHandler cfg ok t s).state.nextId - 1) := by
  unfold runHandler
  by_cases hg : cfg.inactivityLimit ≤ t - s.lastActivityTimestamp
  · simp only [hg, if_true]
    cases hres : (executeKeepAliveWithRetries cfg.maxRetryAttempts ok).result with
    | ok u =>
      have h1 : OwnsPending (registerActivity cfg (t + retryDelay *
          (executeKeepAliveWithRetries cfg.maxRetryAttempts ok).delays) s) := by
        rw [registerActivity_spec _ _ _ h]
        exact ownsPending_of_singleton rfl rfl
      simp only [hres]
      rw [resetInactivityTimeout_spec _ _ _ h1, registerActivity_spec _ _ _ h]
      simp
    | error e =>
      simp only [hres]
      rw [resetInactivityTimeout_spec _ _ _ h]
      simp
  · simp only [hg, if_false]
    rw [resetInactivityTimeout_spec _ _ _ h]
    simp

/-- Same shape for a firing interleaved with a `stop()` call: the `finally`
rearm still installs exactly one fresh pending timer. -/
lemma runHandlerStopDuring_state (cfg : Config) (ok : Nat → Bool) (t : Int)
    (s : HState) (out : FireOutcome) (h : OwnsPending s)
    (hout : runHandlerStopDuring cfg ok t s = some out) :
    out.state.pending =
      [⟨out.state.nextId - 1, out.endTime + cfg.inactivityLimit⟩] ∧
    out.state.inactivityTimeout = some (out.state.nextId - 1) := by
  unfold runHandlerStopDuring at hout
  by_cases hg : cfg.inactivityLimit ≤ t - s.lastActivityTimestamp
  · simp only [hg, if_true] at hout
    have hstop : OwnsPending (stop s) := by
      rw [stop_spec _ h]
      intro e he
      exact absurd he (by simp)
    cases hres : (executeKeepAliveWithRetries cfg.maxRetryAttempts ok).result with
    | ok u =>
      simp only [hres, Option.some.injEq] at hout
      have h1 : OwnsPending (registerActivity cfg (t + retryDelay *
          (executeKeepAliveWithRetries cfg.maxRetryAttempts ok).delays) (stop s)) := by
        rw [registerActivity_spec _ _ _ hstop]
        exact ownsPending_of_singleton rfl rfl
      rw [← hout]
      simp only
      rw [resetInactivityTimeout_spec _ _ _ h1, registerActivity_spec _ _ _ hstop]
      simp
    | error e =>
      simp only [hres, Option.some.injEq] at hout
      rw [← hout]
      simp only
      rw [resetInactivityTimeout_spec _ _ _ hstop]
      simp
  · simp [hg] at hout

lemma timerInv_of_singleton {s : HState} {i : Nat} {t : Int}
    (hp : s.pending = [⟨i, t⟩]) (hf : s.inactivityTimeout = some i) :
    TimerInv s :=
  ⟨ownsPending_of_singleton hp hf, by rw [hp]; simp⟩

/-- Every reachable state of the scheduler satisfies the single-pending-timer
invariant. -/
lemma reachable_timerInv {cfg : Config} {σ : Sys} (h : Reachable cfg σ) :
    TimerInv σ.st := by
  induction h with
  | init raw t0 s hc =>
    unfold construct at hc
    cases hv : validate raw with
    | error e => rw [hv] at hc; exact absurd hc (by simp)
    | ok cfg' =>
      rw [hv] at hc
      simp only [Except.ok.injEq, Prod.mk.injEq] at hc
      obtain ⟨hcfg, hs⟩ := hc
      have h0 : OwnsPending
          (⟨1, t0, none, [], 0⟩ : HState) := by
        intro e he
        exact absurd he (by simp)
      rw [← hs, start, resetInactivityTimeout_spec _ _ _ h0]
      exact timerInv_of_singleton rfl rfl
  | step σ σ' a hr hstep ih =>
    cases a with
    | advance d =>
      simp only [stepF, Option.some.injEq] at hstep
      rw [← hstep]
      exact ih
    | registerActivity =>
      simp only [stepF, Option.some.injEq] at hstep
      rw [← hstep]
      simp only
      rw [registerActivity_spec _ _ _ ih.1]
      exact timerInv_of_singleton rfl rfl
    | start =>
      simp only [stepF, Option.some.injEq] at hstep
      rw [← hstep]
      simp only [start]
      rw [resetInactivityTimeout_spec _ _ _ ih.1]
      exact timerInv_of_singleton rfl rfl
    | stop =>
      simp only [stepF, Option.some.injEq] at hstep
      rw [← hstep]
      simp only
      rw [stop_spec _ ih.1]
      refine ⟨fun e he => absurd he (by simp), by simp⟩
    | resetActivityCount =>
      simp only [stepF, Option.some.injEq] at hstep
      rw [← hstep]
      refine ⟨fun e he => ih.1 e he, ih.2⟩
    | fire ok =>
      simp only [stepF] at hstep
      cases hd : dueTimer σ with
      | none => rw [hd] at hstep; exact absurd hstep (by simp)
      | some e =>
        rw [hd] at hstep
        simp only [Option.some.injEq] at hstep
        rw [← hstep]
        have hco : OwnsPending (clearTimeout σ.st e.id) := clearTimeout_owns e.id ih.1
        obtain ⟨hp, hf⟩ := runHandler_state cfg ok σ.now (clearTimeout σ.st e.id) hco
        exact timerInv_of_singleton hp hf
    | fireStopped ok =>
      simp only [stepF] at hstep
      cases hd : dueTimer σ with
      | none => rw [hd] at hstep; exact absurd hstep (by simp)
      | some e =>
        rw [hd] at hstep
        cases hrun : runHandlerStopDuring cfg ok σ.now (clearTimeout σ.st e.id) with
        | none => simp [hrun] at hstep
        | some out =>
          simp only [hrun, Option.some.injEq] at hstep
          rw [← hstep]
          have hco : OwnsPending (clearTimeout σ.st e.id) := clearTimeout_owns e.id ih.1
          obtain ⟨hp, hf⟩ :=
            runHandlerStopDuring_state cfg ok σ.now (clearTimeout σ.st e.id) out hco hrun
          exact timerInv_of_singleton hp hf

/-- Full characterisation of the retry loop against an always-failing
action: `r` allowed iterations produce exactly `r` invocations and `r - 1`
`retryDelay` suspensions, and the loop ends by throwing the error of the
last attempt (or, with no iteration at all, the incoming `lastError`
defaulted to a fresh `HibernotError`). -/
lemma retryLoop_all_fail (ok : Nat → Bool) (h : ∀ a, ok a = false) :
    ∀ (r attempt : Nat) (le : Option JsError),
      retryLoop ok attempt r le =
        ⟨r, r - 1,
          .error (match r with
            | 0 => le.getD (.hibernot "keepAliveFn failed after all retries")
            | r' + 1 => .actionError (attempt + r'))⟩ := by
  intro r
  induction r with
  | zero =>
    intro attempt le
    simp [retryLoop]
  | succ n ih =>
    intro attempt le
    rw [retryLoop]
    simp only [h attempt, Bool.false_eq_true, if_false]
    rw [ih (attempt + 1) (some (.actionError attempt))]
    cases n with
    | zero => simp
    | succ n' =>
      have h1 : attempt + 1 + n' = attempt + (n' + 1) := by omega
      simp [h1]

/-- `executeKeepAliveWithRetries` against an always-failing action:
`maxAttempts` invocations, `maxAttempts - 1` suspensions, and the last
attempt's error thrown (a fresh `HibernotError` when `maxAttempts = 0`). -/
lemma executeKeepAliveWithRetries_all_fail (N : Nat) (ok : Nat → Bool)
    (h : ∀ a, ok a = false) :
    executeKeepAliveWithRetries N ok =
      ⟨N, N - 1,
        .error (match N with
          | 0 => .hibernot "keepAliveFn failed after all retries"
          | N' + 1 => .actionError (N' + 1))⟩ := by
  rw [executeKeepAliveWithRetries, retryLoop_all_fail ok h N 1 none]
  cases N with
  | zero => simp
  | succ N' =>
    have h1 : 1 + N' = N' + 1 := by omega
    simp [h1]

/-- If validation succeeds with `maxRetryAttempts` provided as the number
`m`, the stored retry bound is `m` (necessarily non-negative). -/
lemma validate_ok_mra {raw : RawConfig} {cfg : Config} {m : Int}
    (h : validate raw = Except.ok cfg) (hm : raw.maxRetryAttempts = .num m) :
    cfg.maxRetryAttempts = m.toNat := by
  obtain ⟨il, fn, mra, nm⟩ := raw
  simp only at hm
  subst hm
  cases il with
  | nonNumber => exact absurd h (by simp [validate])
  | undef => exact absurd h (by simp [validate])
  | num x =>
    by_cases hx : x ≤ 0
    · exact absurd h (by simp [validate, hx])
    · cases fn with
      | nonFunc => exact absurd h (by simp [validate, hx])
      | absent => exact absurd h (by simp [validate, hx])
      | func =>
        by_cases hneg : m < 0
        · exact absurd h (by simp [validate, hx, hneg])
        · simp only [validate, hx, if_false, hneg] at h
          simp only [Except.ok.injEq] at h
          rw [← h]

/-- When the elapsed-time guard holds and the retry engine ends in an
error, the firing handler's `catch` block records exactly that error. -/
lemma runHandler_logs (cfg : Config) (ok : Nat → Bool) (t : Int) (s : HState)
    (hg : cfg.inactivityLimit ≤ t - s.lastActivityTimestamp) {er : JsError}
    (her : (executeKeepAliveWithRetries cfg.maxRetryAttempts ok).result =
      Except.error er) :
    (runHandler cfg ok t s).loggedError = some er := by
  simp only [runHandler, if_pos hg, her]

/-- C1, counterexample: against an always-failing action, with
`maxRetryAttempts = 2`, `executeKeepAliveWithRetries` invokes the action 2
times, not 2 + 1 times as the claim states. -/
theorem retries_count_counterexample :
    ¬ ((executeKeepAliveWithRetries 2 (fun _ => false)).invocations = 2 + 1) := by
  decide

/-- C1 (amended): with `maxRetryAttempts = N` and an action that fails on
every invocation, `executeKeepAliveWithRetries` invokes the action exactly
`N` times total (the loop allows `maxRetryAttempts` attempts, not
`maxRetryAttempts + 1`), suspends for `retryDelay` between each pair of
consecutive attempts and not after the final one (`N - 1` suspensions), and
then signals exhaustion to its caller by throwing. -/
theorem retries_all_fail_spec (N : Nat) (ok : Nat → Bool) (h : ∀ a, ok a = false) :
    (executeKeepAliveWithRetries N ok).invocations = N ∧
    (executeKeepAliveWithRetries N ok).delays = N - 1 ∧
    ∃ e, (executeKeepAliveWithRetries N ok).result = Except.error e := by
  rw [executeKeepAliveWithRetries_all_fail N ok h]
  exact ⟨rfl, rfl, _, rfl⟩

/-- Witness for C1 (amended) at `N = 2` with the always-failing action. -/
theorem retries_all_fail_spec_witness :
    (executeKeepAliveWithRetries 2 (fun _ => false)).invocations = 2 ∧
    (executeKeepAliveWithRetries 2 (fun _ => false)).delays = 2 - 1 ∧
    ∃ e, (executeKeepAliveWithRetries 2 (fun _ => false)).result = Except.error e :=
  retries_all_fail_spec 2 (fun _ => false) (fun _ => rfl)

/-- C8: `resetActivityCount` sets `activityCount` to 0 and changes no other
component of the instance state — timestamp, timer handle, pending queue and
handle counter are untouched (the configuration is not even accessible to
it). -/
theorem resetActivityCount_frame (s : HState) :
    resetActivityCount s =
      ⟨0, s.lastActivityTimestamp, s.inactivityTimeout, s.pending, s.nextId⟩ := by
  obtain ⟨ac, ts, it, pd, ni⟩ := s
  rfl

/-- C9: a configuration with `maxRetryAttempts = 0` passes validation, but
the stored retry bound is then 0, so the retry loop body never runs:
`executeKeepAliveWithRetries` performs zero invocations and throws
`HibernotError('keepAliveFn failed after all retries')`, and every deadline
firing invokes the keep-alive action zero times. -/
theorem maxRetry_zero_spec (raw : RawConfig) (now : Int) (cfg : Config) (s : HState)
    (hmra : raw.maxRetryAttempts = JSNumVal.num 0)
    (hok : construct raw now = Except.ok (cfg, s)) :
    cfg.maxRetryAttempts = 0 ∧
    (∀ ok : Nat → Bool, executeKeepAliveWithRetries cfg.maxRetryAttempts ok =
      ⟨0, 0, Except.error (JsError.hibernot "keepAliveFn failed after all retries")⟩) ∧
    (∀ (ok : Nat → Bool) (t : Int) (st : HState),
      (runHandler cfg ok t st).invocations = 0) := by
  have hv : validate raw = Except.ok cfg := by
    unfold construct at hok
    cases hvv : validate raw with
    | error e => rw [hvv] at hok; exact absurd hok (by simp)
    | ok cfg' =>
      rw [hvv] at hok
      simp only [Except.ok.injEq, Prod.mk.injEq] at hok
      rw [hok.1]
  have h0 : cfg.maxRetryAttempts = 0 := by
    have := validate_ok_mra hv hmra
    simpa using this
  have htr : ∀ ok : Nat → Bool, executeKeepAliveWithRetries cfg.maxRetryAttempts ok =
      ⟨0, 0, Except.error (JsError.hibernot "keepAliveFn failed after all retries")⟩ := by
    intro ok
    rw [h0]
    rfl
  refine ⟨h0, htr, ?_⟩
  intro ok t st
  by_cases hg : cfg.inactivityLimit ≤ t - st.lastActivityTimestamp
  · simp only [runHandler, if_pos hg, htr ok]
  · simp only [runHandler, if_neg hg]

/-- Witness for C9: constructing with `inactivityLimit = 100` and
`maxRetryAttempts = 0` succeeds, and the stored bound is 0. -/
theorem maxRetry_zero_spec_witness :
    (⟨100, 0, none⟩ : Config).maxRetryAttempts = 0 ∧
    (∀ ok : Nat → Bool, executeKeepAliveWithRetries (⟨100, 0, none⟩ : Config).maxRetryAttempts ok =
      ⟨0, 0, Except.error (JsError.hibernot "keepAliveFn failed after all retries")⟩) ∧
    (∀ (ok : Nat → Bool) (t : Int) (st : HState),
      (runHandler (⟨100, 0, none⟩ : Config) ok t st).invocations = 0) :=
  maxRetry_zero_spec ⟨.num 100, .func, .num 0, none⟩ 0 ⟨100, 0, none⟩
    ⟨1, 0, some 0, [⟨0, 100⟩], 1⟩ rfl (by decide)

/-- C4: when every attempt fails, the retry engine surfaces the error of
the final attempt; the firing event is always a legal step of the event
loop (the handler never throws out of the timer callback), the handler's
`catch` logs exactly the surfaced error, and constructor validation errors
are raised synchronously to the caller of `construct`. -/
theorem exhaustion_contained (cfg : Config) (σ : Sys) (ok : Nat → Bool)
    (e : TimerEntry) (hd : dueTimer σ = some e) (hfail : ∀ a, ok a = false)
    (hN : 1 ≤ cfg.maxRetryAttempts) :
    (executeKeepAliveWithRetries cfg.maxRetryAttempts ok).result =
      Except.error (JsError.actionError cfg.maxRetryAttempts) ∧
    (∃ σ', stepF cfg σ (Act.fire ok) = some σ') ∧
    (cfg.inactivityLimit ≤ σ.now - σ.st.lastActivityTimestamp →
      (runHandler cfg ok σ.now (clearTimeout σ.st e.id)).loggedError =
        some (JsError.actionError cfg.maxRetryAttempts)) ∧
    (∀ (raw : RawConfig) (t : Int) (err : JsError),
      validate raw = Except.error err → construct raw t = Except.error err) := by
  have hres : (executeKeepAliveWithRetries cfg.maxRetryAttempts ok).result =
      Except.error (JsError.actionError cfg.maxRetryAttempts) := by
    rw [executeKeepAliveWithRetries_all_fail cfg.maxRetryAttempts ok hfail]
    cases hc : cfg.maxRetryAttempts with
    | zero => omega
    | succ n => simp
  refine ⟨hres, ?_, ?_, ?_⟩
  · refine ⟨⟨(runHandler cfg ok σ.now (clearTimeout σ.st e.id)).state,
      (runHandler cfg ok σ.now (clearTimeout σ.st e.id)).endTime⟩, ?_⟩
    simp only [stepF, hd]
  · intro hg
    exact runHandler_logs cfg ok σ.now (clearTimeout σ.st e.id) hg hres
  · intro raw t err hv
    unfold construct
    rw [hv]

/-- Witness for C4 on the freshly constructed sample instance at the moment
its timer is due, with the always-failing action. -/
theorem exhaustion_contained_witness :
    (executeKeepAliveWithRetries sampleCfg.maxRetryAttempts (fun _ => false)).result =
      Except.error (JsError.actionError sampleCfg.maxRetryAttempts) ∧
    (∃ σ', stepF sampleCfg ⟨sampleInit, 100⟩ (Act.fire (fun _ => false)) = some σ') ∧
    (sampleCfg.inactivityLimit ≤ (100 : Int) - (⟨sampleInit, 100⟩ : Sys).st.lastActivityTimestamp →
      (runHandler sampleCfg (fun _ => false) 100
          (clearTimeout sampleInit (0 : Nat))).loggedError =
        some (JsError.actionError sampleCfg.maxRetryAttempts)) ∧
    (∀ (raw : RawConfig) (t : Int) (err : JsError),
      validate raw = Except.error err → construct raw t = Except.error err) :=
  exhaustion_contained sampleCfg ⟨sampleInit, 100⟩ (fun _ => false) ⟨0, 100⟩
    (by decide) (fun _ => rfl) (by decide)

/-- C5, counterexample: with a valid `inactivityLimit` and a callable
`keepAliveFn` but `maxRetryAttempts` provided as a non-number value,
construction fails with a `HibernotError`, although the claim's rejection
condition ("provided and negative") does not hold — so "exactly when" is
false at this input. -/
theorem construct_validation_counterexample :
    construct ⟨.num 100, .func, .nonNumber, none⟩ 0 =
      Except.error (JsError.hibernot "maxRetryAttempts must be a non-negative number") ∧
    claimedRejectedB ⟨.num 100, .func, .nonNumber, none⟩ = false := by
  decide

/-- C5 (amended): construction fails with a `HibernotError`, creating no
timer (the error is returned before any state exists), exactly when
`inactivityLimit` is zero, negative or not a number, or `keepAliveFn` is
absent or not callable, or `maxRetryAttempts` is provided and is negative
or not a number; on successful construction the deadline timer is armed
immediately, due `inactivityLimit` after construction time. -/
theorem construct_validation (raw : RawConfig) (now : Int) :
    (configRejectedB raw = true →
      ∃ msg, construct raw now = Except.error (JsError.hibernot msg)) ∧
    (configRejectedB raw = false →
      ∃ cfg s, construct raw now = Except.ok (cfg, s) ∧
        s.pending = [⟨0, now + cfg.inactivityLimit⟩] ∧
        s.inactivityTimeout = some 0 ∧
        s.activityCount = 1 ∧ s.lastActivityTimestamp = now) := by
  obtain ⟨il, fn, mra, nm⟩ := raw
  cases il with
  | nonNumber =>
    exact ⟨fun _ => ⟨_, rfl⟩, fun hc => absurd hc (by simp [configRejectedB])⟩
  | undef =>
    exact ⟨fun _ => ⟨_, rfl⟩, fun hc => absurd hc (by simp [configRejectedB])⟩
  | num x =>
    by_cases hx : x ≤ 0
    · refine ⟨fun _ => ⟨"inactivityLimit must be a positive number", ?_⟩, fun hc => ?_⟩
      · simp [construct, validate, hx]
      · simp [configRejectedB, hx] at hc
    · cases fn with
      | nonFunc =>
        refine ⟨fun _ => ⟨"keepAliveFn must be a valid async function", ?_⟩, fun hc => ?_⟩
        · simp [construct, validate, hx]
        · simp [configRejectedB, hx] at hc
      | absent =>
        refine ⟨fun _ => ⟨"keepAliveFn must be a valid async function", ?_⟩, fun hc => ?_⟩
        · simp [construct, validate, hx]
        · simp [configRejectedB, hx] at hc
      | func =>
        cases mra with
        | undef =>
          refine ⟨fun hc => ?_, fun _ => ?_⟩
          · simp [configRejectedB, hx] at hc
          · refine ⟨⟨x, 3, nm⟩, ⟨1, now, some 0, [⟨0, now + x⟩], 1⟩, ?_, rfl, rfl, rfl, rfl⟩
            simp [construct, validate, hx, start, resetInactivityTimeout]
        | nonNumber =>
          refine ⟨fun _ => ⟨"maxRetryAttempts must be a non-negative number", ?_⟩, fun hc => ?_⟩
          · simp [construct, validate, hx]
          · simp [configRejectedB, hx] at hc
        | num m =>
          by_cases hm : m < 0
          · refine ⟨fun _ => ⟨"maxRetryAttempts must be a non-negative number", ?_⟩, fun hc => ?_⟩
            · simp [construct, validate, hx, hm]
            · simp [configRejectedB, hx, hm] at hc
          · refine ⟨fun hc => ?_, fun _ => ?_⟩
            · simp [configRejectedB, hx, hm] at hc
            · refine ⟨⟨x, m.toNat, nm⟩, ⟨1, now, some 0, [⟨0, now + x⟩], 1⟩, ?_, rfl, rfl, rfl, rfl⟩
              simp [construct, validate, hx, hm, start, resetInactivityTimeout]

/-- Witness for C5 (amended): the sample configuration is not rejected and
constructs with the timer armed at `inactivityLimit` from construction. -/
theorem construct_validation_witness :
    ∃ cfg s, construct sampleRaw 0 = Except.ok (cfg, s) ∧
      s.pending = [⟨0, (0 : Int) + cfg.inactivityLimit⟩] ∧
      s.inactivityTimeout = some 0 ∧
      s.activityCount = 1 ∧ s.lastActivityTimestamp = 0 :=
  (construct_validation sampleRaw 0).2 (by decide)

/-- C7: in every reachable state of an instance, the runtime holds at most
one pending deadline timer for it, and that timer is the one the
`inactivityTimeout` handle refers to. -/
theorem at_most_one_pending_timer (cfg : Config) (σ : Sys) (h : Reachable cfg σ) :
    σ.st.pending.length ≤ 1 ∧ OwnsPending σ.st := by
  obtain ⟨h1, h2⟩ := reachable_timerInv h
  exact ⟨h2, h1⟩

/-- Witness for C7 on the freshly constructed sample instance. -/
theorem at_most_one_pending_timer_witness :
    (⟨sampleInit, 0⟩ : Sys).st.pending.length ≤ 1 ∧
    OwnsPending (⟨sampleInit, 0⟩ : Sys).st :=
  at_most_one_pending_timer sampleCfg ⟨sampleInit, 0⟩
    (Reachable.init sampleRaw 0 sampleInit (by decide))

/-- C2, counterexample: stopping is not terminal.  Construct at time 0,
let the timer fire at 100 with an always-failing action, and call `stop()`
while the handler is suspended in the retry loop: the handler's `finally`
still rearms a fresh timer (due at 2200), and advancing the clock there
enables another firing.  So the claim's "stop prevents the rearm an
in-progress firing would perform" is false on this code. -/
theorem stop_not_terminal : ¬ StopIsTerminal sampleCfg := by
  intro h
  have hreach0 : Reachable sampleCfg ⟨sampleInit, 0⟩ :=
    Reachable.init sampleRaw 0 sampleInit (by decide)
  have hreach : Reachable sampleCfg ⟨sampleInit, 100⟩ :=
    Reachable.step ⟨sampleInit, 0⟩ ⟨sampleInit, 100⟩ (Act.advance 100) hreach0 (by decide)
  have h2 := (h ⟨sampleInit, 100⟩ hreach).2 (fun _ => false)
    ⟨⟨1, 0, some 1, [⟨1, 2200⟩], 2⟩, 2100⟩ (by decide) 100 (fun _ => false)
  exact absurd h2 (by decide)

/-- C2 (amended): `stop()` empties the pending-timer queue, and from the
stopped state no firing is ever enabled at any later time — provided no
firing is in progress at the moment of the call.  (A firing already past
its suspension point when `stop()` arrives rearms the timer in its
`finally` step, as `stop_not_terminal` shows.) -/
theorem stop_cancels_all_firings (cfg : Config) (σ : Sys) (h : Reachable cfg σ) :
    (stop σ.st).pending = [] ∧
    ∀ (t : Int) (ok : Nat → Bool),
      stepF cfg ⟨stop σ.st, t⟩ (Act.fire ok) = none ∧
      stepF cfg ⟨stop σ.st, t⟩ (Act.fireStopped ok) = none := by
  have hp : (stop σ.st).pending = [] := by
    rw [stop_spec σ.st (reachable_timerInv h).1]
  refine ⟨hp, ?_⟩
  intro t ok
  have hd : dueTimer ⟨stop σ.st, t⟩ = none := by
    simp [dueTimer, hp]
  exact ⟨by simp [stepF, hd], by simp [stepF, hd]⟩

/-- Witness for C2 (amended): stopping the freshly constructed sample
instance cancels its timer and disables all firings. -/
theorem stop_cancels_all_firings_witness :
    (stop sampleInit).pending = [] ∧
    ∀ (t : Int) (ok : Nat → Bool),
      stepF sampleCfg ⟨stop sampleInit, t⟩ (Act.fire ok) = none ∧
      stepF sampleCfg ⟨stop sampleInit, t⟩ (Act.fireStopped ok) = none :=
  stop_cancels_all_firings sampleCfg ⟨sampleInit, 0⟩
    (Reachable.init sampleRaw 0 sampleInit (by decide))

/-- On a successful keep-alive run the handler registers the firing as an
activity: counter incremented, timestamp stamped with the handler's finish
time. -/
lemma runHandler_success_counts (cfg : Config) (ok : Nat → Bool) (t : Int)
    (s : HState) (h : OwnsPending s)
    (hg : cfg.inactivityLimit ≤ t - s.lastActivityTimestamp)
    (hsucc : (executeKeepAliveWithRetries cfg.maxRetryAttempts ok).result =
      Except.ok ()) :
    (runHandler cfg ok t s).state.activityCount = s.activityCount + 1 ∧
    (runHandler cfg ok t s).state.lastActivityTimestamp =
      (runHandler cfg ok t s).endTime := by
  have h1 : OwnsPending (registerActivity cfg (t + retryDelay *
      (executeKeepAliveWithRetries cfg.maxRetryAttempts ok).delays) s) := by
    rw [registerActivity_spec _ _ _ h]
    exact ownsPending_of_singleton rfl rfl
  simp only [runHandler, if_pos hg, hsucc]
  rw [resetInactivityTimeout_spec _ _ _ h1, registerActivity_spec _ _ _ h]
  exact ⟨rfl, rfl⟩

/-- On a failed (exhausted) keep-alive run the handler leaves the counter
and the timestamp untouched: only the `finally` rearm happens. -/
lemma runHandler_failure_counts (cfg : Config) (ok : Nat → Bool) (t : Int)
    (s : HState) (h : OwnsPending s) {er : JsError}
    (her : (executeKeepAliveWithRetries cfg.maxRetryAttempts ok).result =
      Except.error er) :
    (runHandler cfg ok t s).state.activityCount = s.activityCount ∧
    (runHandler cfg ok t s).state.lastActivityTimestamp =
      s.lastActivityTimestamp := by
  by_cases hg : cfg.inactivityLimit ≤ t - s.lastActivityTimestamp
  · simp only [runHandler, if_pos hg, her]
    rw [resetInactivityTimeout_spec _ _ _ h]
    exact ⟨rfl, rfl⟩
  · simp only [runHandler, if_neg hg]
    rw [resetInactivityTimeout_spec _ _ _ h]
    exact ⟨rfl, rfl⟩

/-- C3: every firing of the deadline timer, whether the keep-alive action
succeeds or exhausts all retries, ends with exactly one freshly armed timer
pending for the next window (the `finally`-equivalent rearm, so the
scheduler never goes permanently idle); and exactly on success the handler
additionally treats the firing as an activity event, incrementing
`activityCount` and setting `lastActivityTimestamp` to the handler's finish
time. -/
theorem fire_rearms_spec (cfg : Config) (σ σ' : Sys) (ok : Nat → Bool)
    (h : Reachable cfg σ) (hs : stepF cfg σ (Act.fire ok) = some σ') :
    (∃ i, σ'.st.pending = [⟨i, σ'.now + cfg.inactivityLimit⟩] ∧
      σ'.st.inactivityTimeout = some i) ∧
    ((cfg.inactivityLimit ≤ σ.now - σ.st.lastActivityTimestamp ∧
        (executeKeepAliveWithRetries cfg.maxRetryAttempts ok).result = Except.ok ()) →
      σ'.st.activityCount = σ.st.activityCount + 1 ∧
      σ'.st.lastActivityTimestamp = σ'.now) ∧
    ((executeKeepAliveWithRetries cfg.maxRetryAttempts ok).result ≠ Except.ok () →
      σ'.st.activityCount = σ.st.activityCount ∧
      σ'.st.lastActivityTimestamp = σ.st.lastActivityTimestamp) := by
  cases hd : dueTimer σ with
  | none => rw [stepF, hd] at hs; exact absurd hs (by simp)
  | some e =>
    rw [stepF, hd] at hs
    simp only [Option.some.injEq] at hs
    have hco : OwnsPending (clearTimeout σ.st e.id) :=
      clearTimeout_owns e.id (reachable_timerInv h).1
    refine ⟨?_, ?_, ?_⟩
    · obtain ⟨hp, hf⟩ := runHandler_state cfg ok σ.now (clearTimeout σ.st e.id) hco
      refine ⟨(runHandler cfg ok σ.now (clearTimeout σ.st e.id)).state.nextId - 1, ?_, ?_⟩
      · rw [← hs]
        exact hp
      · rw [← hs]
        exact hf
    · intro ⟨hg, hsucc⟩
      obtain ⟨h1, h2⟩ := runHandler_success_counts cfg ok σ.now (clearTimeout σ.st e.id)
        hco hg hsucc
      rw [← hs]
      exact ⟨h1, h2⟩
    · intro hne
      cases hres : (executeKeepAliveWithRetries cfg.maxRetryAttempts ok).result with
      | ok u => exact absurd hres hne
      | error er =>
        obtain ⟨h1, h2⟩ := runHandler_failure_counts cfg ok σ.now (clearTimeout σ.st e.id)
          hco hres
        rw [← hs]
        exact ⟨h1, h2⟩

/-- Witness for C3: the sample instance's first firing at time 100 with an
action succeeding on its first attempt. -/
theorem fire_rearms_spec_witness :
    (∃ i, (⟨⟨2, 100, some 2, [⟨2, 200⟩], 3⟩, 100⟩ : Sys).st.pending =
      [⟨i, (⟨⟨2, 100, some 2, [⟨2, 200⟩], 3⟩, 100⟩ : Sys).now + sampleCfg.inactivityLimit⟩] ∧
      (⟨⟨2, 100, some 2, [⟨2, 200⟩], 3⟩, 100⟩ : Sys).st.inactivityTimeout = some i) ∧
    ((sampleCfg.inactivityLimit ≤ (⟨sampleInit, 100⟩ : Sys).now -
        (⟨sampleInit, 100⟩ : Sys).st.lastActivityTimestamp ∧
      (executeKeepAliveWithRetries sampleCfg.maxRetryAttempts (fun _ => true)).result =
        Except.ok ()) →
      (⟨⟨2, 100, some 2, [⟨2, 200⟩], 3⟩, 100⟩ : Sys).st.activityCount =
        (⟨sampleInit, 100⟩ : Sys).st.activityCount + 1 ∧
      (⟨⟨2, 100, some 2, [⟨2, 200⟩], 3⟩, 100⟩ : Sys).st.lastActivityTimestamp =
        (⟨⟨2, 100, some 2, [⟨2, 200⟩], 3⟩, 100⟩ : Sys).now) ∧
    ((executeKeepAliveWithRetries sampleCfg.maxRetryAttempts (fun _ => true)).result ≠
        Except.ok () →
      (⟨⟨2, 100, some 2, [⟨2, 200⟩], 3⟩, 100⟩ : Sys).st.activityCount =
        (⟨sampleInit, 100⟩ : Sys).st.activityCount ∧
      (⟨⟨2, 100, some 2, [⟨2, 200⟩], 3⟩, 100⟩ : Sys).st.lastActivityTimestamp =
        (⟨sampleInit, 100⟩ : Sys).st.lastActivityTimestamp) :=
  fire_rearms_spec sampleCfg ⟨sampleInit, 100⟩ ⟨⟨2, 100, some 2, [⟨2, 200⟩], 3⟩, 100⟩
    (fun _ => true)
    (Reachable.step ⟨sampleInit, 0⟩ ⟨sampleInit, 100⟩ (Act.advance 100)
      (Reachable.init sampleRaw 0 sampleInit (by decide)) (by decide))
    (by decide)

/-- C6: `registerActivity()` increments the counter, stamps the timestamp
with the current time, replaces whatever timer was pending with exactly one
fresh timer due `inactivityLimit` from now, and consequently no firing is
enabled strictly before `inactivityLimit` has elapsed since the call. -/
theorem registerActivity_effects (cfg : Config) (σ : Sys) (h : Reachable cfg σ) :
    (registerActivity cfg σ.now σ.st).activityCount = σ.st.activityCount + 1 ∧
    (registerActivity cfg σ.now σ.st).lastActivityTimestamp = σ.now ∧
    (∃ i, (registerActivity cfg σ.now σ.st).pending =
      [⟨i, σ.now + cfg.inactivityLimit⟩]) ∧
    (∀ (d : Nat) (ok : Nat → Bool) (σ'' : Sys),
      stepF cfg ⟨registerActivity cfg σ.now σ.st, σ.now + (d : Int)⟩
        (Act.fire ok) = some σ'' →
      cfg.inactivityLimit ≤ (d : Int)) := by
  rw [registerActivity_spec cfg σ.now σ.st (reachable_timerInv h).1]
  refine ⟨rfl, rfl, ⟨σ.st.nextId, rfl⟩, ?_⟩
  intro d ok σ'' hs
  by_cases hle : cfg.inactivityLimit ≤ (d : Int)
  · exact hle
  · exfalso
    have hnle : ¬ (σ.now + cfg.inactivityLimit ≤ σ.now + (d : Int)) := by omega
    have hd : dueTimer ⟨⟨σ.st.activityCount + 1, σ.now, some σ.st.nextId,
        [⟨σ.st.nextId, σ.now + cfg.inactivityLimit⟩], σ.st.nextId + 1⟩,
        σ.now + (d : Int)⟩ = none := by
      simp [dueTimer, hnle]
    rw [stepF, hd] at hs
    exact absurd hs (by simp)

/-- Witness for C6 on the freshly constructed sample instance. -/
theorem registerActivity_effects_witness :
    (registerActivity sampleCfg 0 sampleInit).activityCount =
      (⟨sampleInit, 0⟩ : Sys).st.activityCount + 1 ∧
    (registerActivity sampleCfg 0 sampleInit).lastActivityTimestamp = 0 ∧
    (∃ i, (registerActivity sampleCfg 0 sampleInit).pending =
      [⟨i, (0 : Int) + sampleCfg.inactivityLimit⟩]) ∧
    (∀ (d : Nat) (ok : Nat → Bool) (σ'' : Sys),
      stepF sampleCfg ⟨registerActivity sampleCfg 0 sampleInit, (0 : Int) + (d : Int)⟩
        (Act.fire ok) = some σ'' →
      sampleCfg.inactivityLimit ≤ (d : Int)) :=
  registerActivity_effects sampleCfg ⟨sampleInit, 0⟩
    (Reachable.init sampleRaw 0 sampleInit (by decide))

/-- C10: from any reachable state — in particular a stopped one — `start()`
rearms the scheduler: exactly one fresh timer is pending, due
`inactivityLimit` from now, and once that much time has passed a firing is
again enabled.  Re-entry after `stop()` needs no new instance. -/
theorem start_rearms_after_stop (cfg : Config) (σ : Sys) (h : Reachable cfg σ) :
    ∃ i, (start cfg σ.now (stop σ.st)).pending = [⟨i, σ.now + cfg.inactivityLimit⟩] ∧
      (start cfg σ.now (stop σ.st)).inactivityTimeout = some i ∧
      ∀ (d : Nat) (ok : Nat → Bool), cfg.inactivityLimit ≤ (d : Int) →
        ∃ σ' : Sys, stepF cfg ⟨start cfg σ.now (stop σ.st), σ.now + (d : Int)⟩
          (Act.fire ok) = some σ' := by
  have hstop := stop_spec σ.st (reachable_timerInv h).1
  have howns : OwnsPending (stop σ.st) := by
    rw [hstop]
    intro e he
    exact absurd he (by simp)
  rw [start, resetInactivityTimeout_spec _ _ _ howns]
  refine ⟨(stop σ.st).nextId, rfl, rfl, ?_⟩
  intro d ok hle
  have hfind : σ.now + cfg.inactivityLimit ≤ σ.now + (d : Int) := by omega
  have hd : dueTimer ⟨⟨(stop σ.st).activityCount, (stop σ.st).lastActivityTimestamp,
      some (stop σ.st).nextId, [⟨(stop σ.st).nextId, σ.now + cfg.inactivityLimit⟩],
      (stop σ.st).nextId + 1⟩, σ.now + (d : Int)⟩ =
      some ⟨(stop σ.st).nextId, σ.now + cfg.inactivityLimit⟩ := by
    simp [dueTimer, hfind]
  refine ⟨?_, ?_⟩
  · exact ⟨(runHandler cfg ok (σ.now + (d : Int)) (clearTimeout
      ⟨(stop σ.st).activityCount, (stop σ.st).lastActivityTimestamp,
        some (stop σ.st).nextId, [⟨(stop σ.st).nextId, σ.now + cfg.inactivityLimit⟩],
        (stop σ.st).nextId + 1⟩ (stop σ.st).nextId)).state,
      (runHandler cfg ok (σ.now + (d : Int)) (clearTimeout
      ⟨(stop σ.st).activityCount, (stop σ.st).lastActivityTimestamp,
        some (stop σ.st).nextId, [⟨(stop σ.st).nextId, σ.now + cfg.inactivityLimit⟩],
        (stop σ.st).nextId + 1⟩ (stop σ.st).nextId)).endTime⟩
  · rw [stepF, hd]

/-- Witness for C10 on the freshly constructed, then stopped, sample
instance. -/
theorem start_rearms_after_stop_witness :
    ∃ i, (start sampleCfg 0 (stop sampleInit)).pending =
      [⟨i, (0 : Int) + sampleCfg.inactivityLimit⟩] ∧
      (start sampleCfg 0 (stop sampleInit)).inactivityTimeout = some i ∧
      ∀ (d : Nat) (ok : Nat → Bool), sampleCfg.inactivityLimit ≤ (d : Int) →
        ∃ σ' : Sys, stepF sampleCfg ⟨start sampleCfg 0 (stop sampleInit),
          (0 : Int) + (d : Int)⟩ (Act.fire ok) = some σ' :=
  start_rearms_after_stop sampleCfg ⟨sampleInit, 0⟩
    (Reachable.init sampleRaw 0 sampleInit (by decide))

end Hibernot
